import Mathlib

/-!
Verification development for the Librus grade monitor
(`grade_monitor.py`).  The Python source is shallowly embedded below:

* Python `str` values that are inspected character by character (the
  seen-set file on disk) are modelled as `List Char`; strings that are
  only built and compared (notification bodies) stay `String`.
* Python `set[int]` (`GradeTracker.known_grades`) is modelled as a
  `List Int` used with set semantics (`List.insert`, membership);
  `json.dumps(list(s))` serializes the list in its iteration order,
  which the model fixes deterministically.
* `json.loads` applied to the seen-set file only ever has to produce a
  list of integers; the parser below (`parseIntList`) implements the
  JSON grammar restricted to arrays of integers, and every other
  content is a parse failure, matching the `except` path of the source.
* Fallible collaborators (the SMTP transport inside
  `EmailSender.send_email`, the file write inside `GradeTracker.save`,
  the remote fetch inside `LibrusMonitor.check_for_updates`) are driven
  by explicit oracles recording whether each call succeeds, mirroring
  the source's `try`/`except` blocks.
-/

namespace LibrusGradeMonitor

/-! ## Decimal digits and integer rendering (model of Python `str(int)` /
`json.dumps` number output) -/

/-- The character for a decimal digit `d < 10`. -/
def digitChar (d : Nat) : Char := Char.ofNat (48 + d)

/-- Value of a big-endian digit string (fold used by the JSON parser). -/
def digitsToNat (cs : List Char) : Nat :=
  cs.foldl (fun a c => 10 * a + (c.toNat - 48)) 0

/-- Fuelled big-endian decimal rendering of a natural number.  Fuel is
structural so the kernel can evaluate it. -/
def natDigitsF : Nat → Nat → List Char
  | 0, _ => []
  | fuel + 1, n =>
      if n < 10 then [digitChar n]
      else natDigitsF fuel (n / 10) ++ [digitChar (n % 10)]

/-- Decimal digits of a natural number (`n + 1` is always enough fuel). -/
def natDigits (n : Nat) : List Char := natDigitsF (n + 1) n

/-- Decimal rendering of an integer, as produced by `json.dumps` for an
`int` element. -/
def intChars (i : Int) : List Char :=
  if i < 0 then '-' :: natDigits i.natAbs else natDigits i.toNat

/-! ## Whitespace: JSON inter-token whitespace and Python `str.strip` -/

/-- JSON whitespace characters (accepted between tokens by `json.loads`). -/
def isJsonWs (c : Char) : Bool :=
  c == ' ' || c == '\t' || c == '\n' || c == '\r'

/-- Whitespace removed by Python `str.strip()` (the characters relevant
to this code base coincide with the JSON set, plus vertical tab and
form feed). -/
def isPyWs (c : Char) : Bool :=
  c == ' ' || c == '\t' || c == '\n' || c == '\r' || c == '\x0b' || c == '\x0c'

/-- Skip leading JSON whitespace. -/
def skipWs (cs : List Char) : List Char := cs.dropWhile isJsonWs

/-- Model of Python `str.strip()` on a character list. -/
def trimChars (cs : List Char) : List Char :=
  ((cs.dropWhile isPyWs).reverse.dropWhile isPyWs).reverse

/-! ## JSON array-of-integers parser (model of `json.loads` restricted to
the only shape `GradeTracker.load` accepts, `set(json.loads(content))`
over a list of integers) -/

/-- Parse a JSON natural-number literal: a nonempty digit run with no
leading zero (except `0` itself).  Returns the value and the rest. -/
def parseNatRun (cs : List Char) : Option (Nat × List Char) :=
  let run := cs.takeWhile (fun c => c.isDigit)
  if run.isEmpty then none
  else if 1 < run.length ∧ run.head? = some '0' then none
  else some (digitsToNat run, cs.dropWhile (fun c => c.isDigit))

/-- Parse a JSON integer literal (optional minus sign). -/
def parseIntAux (cs : List Char) : Option (Int × List Char) :=
  match cs with
  | [] => none
  | c :: rest =>
      if c = '-' then (parseNatRun rest).map (fun p => (-(p.1 : Int), p.2))
      else (parseNatRun (c :: rest)).map (fun p => ((p.1 : Int), p.2))

/-- Parse the comma-separated items of a nonempty JSON integer array,
positioned just after `[` (or after a `,`); requires the closing `]` to
end the input.  Fuel is structural for kernel evaluation. -/
def parseItems : Nat → List Char → Option (List Int)
  | 0, _ => none
  | fuel + 1, cs =>
      match parseIntAux (skipWs cs) with
      | none => none
      | some (i, rest) =>
          match skipWs rest with
          | ']' :: tail => if (skipWs tail).isEmpty then some [i] else none
          | ',' :: tail => (parseItems fuel tail).map (fun l => i :: l)
          | _ => none

/-- Parse a complete JSON array of integers; any other content is a
parse failure (the `json.loads` call in `GradeTracker.load` raising). -/
def parseIntList (cs : List Char) : Option (List Int) :=
  match skipWs cs with
  | [] => none
  | c :: rest =>
      if c = '[' then
        let rest2 := skipWs rest
        if rest2.head? = some ']' then
          if (skipWs rest2.tail).isEmpty then some [] else none
        else parseItems (rest2.length + 1) rest2
      else none

/-! ## Serializer (model of `json.dumps(list(known_grades))`, which
renders `[1, 2]`-style output) -/

/-- Body of the serialized array: items separated by `", "`. -/
def dumpsBody : List Int → List Char
  | [] => []
  | [i] => intChars i
  | i :: j :: rest => intChars i ++ ',' :: ' ' :: dumpsBody (j :: rest)

/-- Full serialized JSON array, exactly as `json.dumps` renders a list
of integers. -/
def dumpsIntList (l : List Int) : List Char :=
  '[' :: (dumpsBody l ++ [']'])

/-! ## Timestamp handling: model of
`datetime.strptime(s, "%Y-%m-%d %H:%M:%S").strftime("%Y-%m-%d %H:%M")`
in `LibrusMonitor.format_grade_info`.  `strptime` matches the whole
string against the fixed pattern (4-digit year, 1–2 digit month, day,
hour, minute, second fields with literal separators) and constructing
the `datetime` validates the field ranges; a mismatch raises
`ValueError`. -/

/-- Leap-year rule used by `datetime` for day-of-month validation. -/
def isLeapYear (y : Nat) : Bool :=
  (y % 4 == 0 && y % 100 != 0) || y % 400 == 0

/-- Days in a month, as validated by `datetime`'s constructor. -/
def daysInMonth (y m : Nat) : Nat :=
  if m = 2 then (if isLeapYear y then 29 else 28)
  else if m = 4 ∨ m = 6 ∨ m = 9 ∨ m = 11 then 30
  else 31

/-- Read a maximal digit run: value, run length, and rest of the input. -/
def parseDigitRun (cs : List Char) : Option (Nat × Nat × List Char) :=
  let run := cs.takeWhile (fun c => c.isDigit)
  if run.isEmpty then none
  else some (digitsToNat run, run.length, cs.dropWhile (fun c => c.isDigit))

/-- Consume one expected literal character. -/
def expectChar (c : Char) : List Char → Option (List Char)
  | [] => none
  | x :: xs => if x = c then some xs else none

/-- Parsed timestamp fields. -/
structure DateTimeVal where
  year : Nat
  month : Nat
  day : Nat
  hour : Nat
  minute : Nat
  second : Nat
deriving DecidableEq

/-- Model of `datetime.strptime(s, "%Y-%m-%d %H:%M:%S")`: whole-string
match with range validation; `none` is the raised `ValueError`. -/
def parseDateTime (s : String) : Option DateTimeVal := do
  let (y, yl, cs) ← parseDigitRun s.toList
  if yl ≠ 4 ∨ y = 0 then none else
  let cs ← expectChar '-' cs
  let (mo, ml, cs) ← parseDigitRun cs
  if 2 < ml ∨ mo = 0 ∨ 12 < mo then none else
  let cs ← expectChar '-' cs
  let (d, dl, cs) ← parseDigitRun cs
  if 2 < dl ∨ d = 0 ∨ daysInMonth y mo < d then none else
  let cs ← expectChar ' ' cs
  let (h, hl, cs) ← parseDigitRun cs
  if 2 < hl ∨ 23 < h then none else
  let cs ← expectChar ':' cs
  let (mi, mil, cs) ← parseDigitRun cs
  if 2 < mil ∨ 59 < mi then none else
  let cs ← expectChar ':' cs
  let (sec, sl, cs) ← parseDigitRun cs
  if 2 < sl ∨ 59 < sec then none else
  if cs.isEmpty then some ⟨y, mo, d, h, mi, sec⟩ else none

/-- Zero-pad to two digits (`strftime` `%m`, `%d`, `%H`, `%M`). -/
def pad2 (n : Nat) : String := if n < 10 then "0" ++ toString n else toString n

/-- Zero-pad to four digits (`strftime` `%Y`). -/
def pad4 (n : Nat) : String :=
  if n < 10 then "000" ++ toString n
  else if n < 100 then "00" ++ toString n
  else if n < 1000 then "0" ++ toString n
  else toString n

/-- The date line content produced in `format_grade_info`:
parse `AddDate` and re-render it as `YYYY-MM-DD HH:MM`.  `none` is the
`ValueError` caught by the surrounding `try`. -/
def parseAddDate (s : String) : Option String :=
  (parseDateTime s).map fun dt =>
    pad4 dt.year ++ "-" ++ pad2 dt.month ++ "-" ++ pad2 dt.day ++ " " ++
      pad2 dt.hour ++ ":" ++ pad2 dt.minute

/-! ## Grade records and the metadata snapshot (`api_dump.json`) -/

/-- A grade record as consumed by `format_grade_info` and
`check_for_updates` (the dict fields actually read by the source).
`raw` carries `str(grade)`, the Python repr used as fallback output by
`format_grade_info`'s `except` branch. -/
structure Grade where
  id : Int
  addDate : String
  subjectId : Int
  addedById : Int
  categoryId : Int
  grade : String
  comments : Bool
  raw : String
deriving DecidableEq

/-- An entry of `api_data['Subjects']['Subjects']`. -/
structure SubjectRec where
  id : Int
  name : String
deriving DecidableEq

/-- An entry of `api_data['Users']['Users']`. -/
structure UserRec where
  id : Int
  firstName : String
  lastName : String
deriving DecidableEq

/-- An entry of `api_data['Grades/Categories']['Categories']`;
`weight` is `None` when the dict has no `Weight` key
(`category.get('Weight', 'N/A')`). -/
structure CategoryRec where
  id : Int
  name : String
  weight : Option Nat
deriving DecidableEq

/-- The metadata snapshot loaded by `load_api_data`.  Each list is the
corresponding `api_data.get(...).get(..., [])` lookup result. -/
structure ApiData where
  subjects : List SubjectRec
  users : List UserRec
  categories : List CategoryRec
deriving DecidableEq

/-- Snapshot state when `api_dump.json` is absent or fails to load:
`self.api_data = {}`, so every endpoint lookup yields `[]`. -/
def ApiData.empty : ApiData := ⟨[], [], []⟩

/-- Subject lookup in `format_grade_info`:
`next((s['Name'] ...), f"Subject ID: {subject_id}")`. -/
def findSubjectName (api : ApiData) (sid : Int) : String :=
  match api.subjects.find? (fun s => s.id == sid) with
  | some s => s.name
  | none => "Subject ID: " ++ toString sid

/-- Teacher lookup in `format_grade_info`: `next((u ...),
{'FirstName': 'Unknown', 'LastName': f'Teacher (ID: {teacher_id})'})`,
returned as the `(FirstName, LastName)` pair used by the body line. -/
def findTeacher (api : ApiData) (tid : Int) : String × String :=
  match api.users.find? (fun u => u.id == tid) with
  | some u => (u.firstName, u.lastName)
  | none => ("Unknown", "Teacher (ID: " ++ toString tid ++ ")")

/-- Category lookup in `format_grade_info`: `next((c ...),
{'Name': f'Category {category_id}', 'Weight': 'N/A'})`, returned as the
`(Name, rendered weight)` pair used by the body line. -/
def findCategory (api : ApiData) (cid : Int) : String × String :=
  match api.categories.find? (fun c => c.id == cid) with
  | some c => (c.name, match c.weight with
                       | some w => toString w
                       | none => "N/A")
  | none => ("Category " ++ toString cid, "N/A")

/-- Subject lookup in `check_for_updates` used for the email subject:
`next((s['Name'] ...), f"Subject {subject_id}")` (note the different
placeholder from the one in `format_grade_info`). -/
def subjectShort (api : ApiData) (sid : Int) : String :=
  match api.subjects.find? (fun s => s.id == sid) with
  | some s => s.name
  | none => "Subject " ++ toString sid

/-- The `grade_info` list built by `format_grade_info` once the date
parsed, including the conditional comment marker line. -/
def format_lines (api : ApiData) (g : Grade) (date : String) : List String :=
  let base := [
    "Przedmiot: " ++ findSubjectName api g.subjectId,
    "Ocena: " ++ g.grade,
    "Kategoria: " ++ (findCategory api g.categoryId).1 ++
      " (waga: " ++ (findCategory api g.categoryId).2 ++ ")",
    "Nauczyciel: " ++ (findTeacher api g.addedById).1 ++ " " ++
      (findTeacher api g.addedById).2,
    "Data: " ++ date]
  if g.comments then base ++ ["Komentarz dodany do oceny"] else base

/-- `LibrusMonitor.format_grade_info`.  The whole body is wrapped in
`try`/`except`: on a `ValueError` from `strptime` the source logs the
failure and returns `str(grade)` — it never raises. -/
def format_grade_info (api : ApiData) (g : Grade) : String :=
  match parseAddDate g.addDate with
  | some date => String.intercalate "\n" (format_lines api g date)
  | none => g.raw

/-! ## Seen-set store (`GradeTracker`) -/

/-- On-disk state of `known_grades.json`: either the file does not
exist (`self.path.exists()` is false) or it holds some character
content. -/
inductive FileContent where
  | missing
  | content (chars : List Char)
deriving DecidableEq

/-- Result of `GradeTracker.load`: the in-memory set (as a duplicate
free list) together with the on-disk state after the call.  The source
only ever reads the file in `load`, so the file component always equals
the input. -/
structure LoadResult where
  known_grades : List Int
  file : FileContent
deriving DecidableEq

/-- `GradeTracker.load`, called once at startup with
`known_grades = set()`:
missing file → set stays empty; stripped-empty content → set stays
empty; `set(json.loads(content))` on an integer array → that set; any
exception (malformed JSON) → logged, `known_grades = set()`.  No branch
writes or removes the file. -/
def GradeTracker.load : FileContent → LoadResult
  | .missing => ⟨[], .missing⟩
  | .content s =>
      let c := trimChars s
      if c.isEmpty then ⟨[], .content s⟩
      else
        match parseIntList c with
        | some l => ⟨l.dedup, .content s⟩
        | none => ⟨[], .content s⟩

/-- `GradeTracker.save`: `self.path.write_text(json.dumps(list(self.known_grades)))`
— a single direct write of the serialized set to the target path. -/
def GradeTracker.save (known : List Int) : FileContent :=
  .content (dumpsIntList known)

/-- The file content left behind when the single direct write performed
by `GradeTracker.save` (`Path.write_text`, which truncates then writes)
is interrupted after `k` characters. -/
def partialWrite (newContent : List Char) (k : Nat) : List Char :=
  newContent.take k

/-! ## Poll orchestrator (`LibrusMonitor`) -/

/-- Outcomes of the external calls made during one cycle, mirroring the
source's `try`/`except` boundaries: `sendOk id` is whether the
`aiosmtplib.send` inside `EmailSender.send_email` succeeds for the
notification of grade `id` (on failure `send_email` catches the
exception and returns `False`); `saveOk id` is whether the
`write_text` inside `GradeTracker.save` after adding grade `id`
succeeds (on failure `save` catches and logs, leaving the file as it
was). -/
structure Oracle where
  sendOk : Int → Bool
  saveOk : Int → Bool

/-- Cross-cycle monitor state: the in-memory `known_grades` set and the
on-disk seen-set file. -/
structure MonitorState where
  known_grades : List Int
  file : FileContent
deriving DecidableEq

/-- One call to `EmailSender.send_email` made from `check_for_updates`
for a newly detected grade: the grade id it notifies about, the subject
line, the body, and whether the underlying SMTP send succeeded
(`send_email`'s return value, which the caller ignores). -/
structure CycleEmail where
  gid : Int
  subject : String
  body : String
  ok : Bool
deriving DecidableEq

/-- Result of one `check_for_updates` call: the state afterwards and
the dispatch calls made, in order. -/
structure CycleResult where
  state : MonitorState
  emails : List CycleEmail
deriving DecidableEq

/-- Outcome of `await self.librus.get_data("Grades")`: the call raised
(caught by the `except` around the whole cycle body), returned a falsy
response or one without a `"Grades"` key (early `return`), or returned
a list of grade records. -/
inductive FetchResult where
  | raised
  | noGrades
  | grades (gs : List Grade)

/-- The `for grade in response["Grades"]` loop of `check_for_updates`.
For each grade whose id is not in the in-memory set: format the body,
look up the short subject name, call `send_email` (its boolean result
is ignored), `known_grades.add(grade_id)`, then `GradeTracker.save`
(which rewrites the file when its write succeeds and leaves it
unchanged when the write raises). -/
def processGrades (api : ApiData) (orc : Oracle) :
    List Grade → MonitorState → CycleResult
  | [], st => ⟨st, []⟩
  | g :: rest, st =>
      if g.id ∈ st.known_grades then processGrades api orc rest st
      else
        let call : CycleEmail :=
          ⟨g.id, "Nowa ocena - " ++ subjectShort api g.subjectId,
            format_grade_info api g, orc.sendOk g.id⟩
        let known2 := st.known_grades.insert g.id
        let file2 := if orc.saveOk g.id then GradeTracker.save known2 else st.file
        let r := processGrades api orc rest ⟨known2, file2⟩
        ⟨r.state, call :: r.emails⟩

/-- `LibrusMonitor.check_for_updates`: fetch, early return on a missing
`"Grades"` key, then the per-grade loop; any exception raised by the
fetch is caught by the surrounding `except`, leaving the state
untouched. -/
def check_for_updates (api : ApiData) (orc : Oracle) (fetch : FetchResult)
    (st : MonitorState) : CycleResult :=
  match fetch with
  | .raised => ⟨st, []⟩
  | .noGrades => ⟨st, []⟩
  | .grades gs => processGrades api orc gs st

/-! ## The `run` loop -/

/-- Input of one iteration of the polling loop: the fetch outcome and
the send/save oracles for that cycle. -/
structure CycleInput where
  fetch : FetchResult
  orc : Oracle

/-- Observable trace of one `LibrusMonitor.run` invocation.
`exitCode` is the process exit status (`asyncio.run(monitor.run())`
returning normally exits with 0). `fetchCount` counts `get_data`
calls (one per executed cycle, raising ones included). -/
structure RunTrace where
  exitCode : Nat
  startupEmailSent : Bool
  shutdownEmailSent : Bool
  fetchCount : Nat
  cycleEmails : List CycleEmail
  finalState : MonitorState
  cyclesExecuted : Nat

/-- The steady-state `while True` loop, unrolled over a finite schedule
of cycle inputs (each list element is one interval of the loop; the
inter-cycle `asyncio.sleep` separates them). -/
def runCycles (api : ApiData) :
    List CycleInput → MonitorState → MonitorState × List CycleEmail × Nat
  | [], st => (st, [], 0)
  | c :: rest, st =>
      let r := check_for_updates api c.orc c.fetch st
      let rec2 := runCycles api rest r.state
      (rec2.1, r.emails ++ rec2.2.1, rec2.2.2 + 1)

/-- `LibrusMonitor.run`: configuration load/setup, then
`grade_tracker.load()`, then `librus.mktoken` authentication.  A config
failure or an authentication failure logs and uses a plain `return`, so
`asyncio.run` completes normally and the process exits with status 0.
On success the startup email is sent, the polling loop runs, and the
eventual `KeyboardInterrupt` sends the shutdown email and also ends
with exit status 0. -/
def LibrusMonitor.run (configOk authOk : Bool) (api : ApiData)
    (file0 : FileContent) (cycles : List CycleInput) : RunTrace :=
  if configOk = false then
    ⟨0, false, false, 0, [], ⟨[], file0⟩, 0⟩
  else
    let st0 : MonitorState := ⟨(GradeTracker.load file0).known_grades, file0⟩
    if authOk = false then
      ⟨0, false, false, 0, [], st0, 0⟩
    else
      let res := runCycles api cycles st0
      ⟨0, true, true, res.2.2, res.2.1, res.1, res.2.2⟩

/-! ## Lemmas: decimal digit strings -/

theorem digitChar_toNat {d : Nat} (h : d < 10) : (digitChar d).toNat = 48 + d := by
  interval_cases d <;> rfl

theorem isDigit_digitChar {d : Nat} (h : d < 10) : (digitChar d).isDigit = true := by
  interval_cases d <;> rfl

theorem digitChar_ne_zero {d : Nat} (h : d < 10) (h0 : d ≠ 0) : digitChar d ≠ '0' := by
  interval_cases d <;> simp_all <;> decide

theorem natDigitsF_congr : ∀ (f1 f2 n : Nat), n < f1 → n < f2 →
    natDigitsF f1 n = natDigitsF f2 n := by
  intro f1
  induction f1 with
  | zero => intro f2 n h1 _; omega
  | succ f ih =>
    intro f2 n h1 h2
    match f2, h2 with
    | f2 + 1, h2 =>
      simp only [natDigitsF]
      by_cases h10 : n < 10
      · simp [h10]
      · have hd : n / 10 < n := Nat.div_lt_self (by omega) (by omega)
        simp only [h10, if_false]
        rw [ih f2 (n / 10) (by omega) (by omega)]

theorem natDigits_eq (n : Nat) :
    natDigits n = if n < 10 then [digitChar n]
                  else natDigits (n / 10) ++ [digitChar (n % 10)] := by
  by_cases h10 : n < 10
  · simp only [natDigits, natDigitsF, h10, if_true]
  · have hd : n / 10 < n := Nat.div_lt_self (by omega) (by omega)
    simp only [h10, if_false]
    show natDigitsF (n + 1) n = _
    rw [show natDigitsF (n + 1) n = natDigitsF n (n / 10) ++ [digitChar (n % 10)] by
      simp [natDigitsF, h10]]
    rw [natDigitsF_congr n (n / 10 + 1) (n / 10) (by omega) (by omega)]
    rfl

theorem natDigits_ne_nil (n : Nat) : natDigits n ≠ [] := by
  rw [natDigits_eq]
  by_cases h10 : n < 10 <;> simp [h10]

theorem natDigits_all_digit (n : Nat) : ∀ c ∈ natDigits n, c.isDigit = true := by
  induction n using Nat.strong_induction_on with
  | _ n ih =>
    rw [natDigits_eq]
    by_cases h10 : n < 10
    · simp only [h10, if_true, List.mem_singleton]
      rintro c rfl
      exact isDigit_digitChar h10
    · have hd : n / 10 < n := Nat.div_lt_self (by omega) (by omega)
      simp only [h10, if_false, List.mem_append, List.mem_singleton]
      rintro c (hc | rfl)
      · exact ih (n / 10) hd c hc
      · exact isDigit_digitChar (Nat.mod_lt _ (by omega))

theorem digitsToNat_append_singleton (xs : List Char) (c : Char) :
    digitsToNat (xs ++ [c]) = 10 * digitsToNat xs + (c.toNat - 48) := by
  simp [digitsToNat, List.foldl_append]

theorem digitsToNat_natDigits (n : Nat) : digitsToNat (natDigits n) = n := by
  induction n using Nat.strong_induction_on with
  | _ n ih =>
    rw [natDigits_eq]
    by_cases h10 : n < 10
    · simp only [h10, if_true]
      show digitsToNat ([] ++ [digitChar n]) = n
      rw [digitsToNat_append_singleton, digitChar_toNat h10]
      simp [digitsToNat]
    · have hd : n / 10 < n := Nat.div_lt_self (by omega) (by omega)
      simp only [h10, if_false]
      rw [digitsToNat_append_singleton, ih (n / 10) hd,
        digitChar_toNat (Nat.mod_lt _ (by omega))]
      omega

theorem natDigits_head_ne_zero (n : Nat) (h0 : n ≠ 0) :
    (natDigits n).head? ≠ some '0' := by
  induction n using Nat.strong_induction_on with
  | _ n ih =>
    rw [natDigits_eq]
    by_cases h10 : n < 10
    · simpa [h10] using digitChar_ne_zero h10 h0
    · have hd : n / 10 < n := Nat.div_lt_self (by omega) (by omega)
      have hne := natDigits_ne_nil (n / 10)
      simp only [h10, if_false]
      rw [List.head?_append_of_ne_nil _ hne]
      exact ih (n / 10) hd (by omega)

theorem natDigits_zero : natDigits 0 = ['0'] := by decide

/-! ## Lemmas: the JSON integer-array parser inverts the serializer -/

/-- Heads of the tail input that stop a digit run. -/
def stopsRun (cs : List Char) : Prop :=
  ∀ c ∈ cs.head?, c.isDigit = false

theorem stopsRun_nil : stopsRun [] := by simp [stopsRun]

theorem stopsRun_cons {c : Char} {cs : List Char} (h : c.isDigit = false) :
    stopsRun (c :: cs) := by simp [stopsRun, h]

theorem takeWhile_digits_append {xs ys : List Char}
    (h1 : ∀ c ∈ xs, c.isDigit = true) (h2 : stopsRun ys) :
    (xs ++ ys).takeWhile (fun c => c.isDigit) = xs ∧
      (xs ++ ys).dropWhile (fun c => c.isDigit) = ys := by
  induction xs with
  | nil =>
    simp only [List.nil_append]
    cases ys with
    | nil => simp
    | cons c t =>
      have hc : c.isDigit = false := h2 c rfl
      simp [List.takeWhile_cons, List.dropWhile_cons, hc]
  | cons x xs ih =>
    have hx : x.isDigit = true := h1 x (by simp)
    have ih2 := ih (fun c hc => h1 c (by simp [hc]))
    simp [List.takeWhile_cons, List.dropWhile_cons, hx, ih2.1, ih2.2]

theorem parseNatRun_natDigits (n : Nat) (rest : List Char) (h : stopsRun rest) :
    parseNatRun (natDigits n ++ rest) = some (n, rest) := by
  have hall := natDigits_all_digit n
  have htd := takeWhile_digits_append hall h
  unfold parseNatRun
  simp only [htd.1, htd.2]
  have hne : (natDigits n).isEmpty = false := by
    cases hnd : natDigits n with
    | nil => exact absurd hnd (natDigits_ne_nil n)
    | cons c t => rfl
  simp only [hne, Bool.false_eq_true, if_false]
  have hlead : ¬(1 < (natDigits n).length ∧ (natDigits n).head? = some '0') := by
    rintro ⟨hlen, hhead⟩
    by_cases h0 : n = 0
    · rw [h0, natDigits_zero] at hlen
      simp at hlen
    · exact natDigits_head_ne_zero n h0 hhead
  simp only [hlead, if_false, digitsToNat_natDigits]

theorem isDigit_ne_minus {c : Char} (h : c.isDigit = true) : c ≠ '-' := by
  rintro rfl
  simp [Char.isDigit] at h

theorem parseIntAux_intChars (i : Int) (rest : List Char) (h : stopsRun rest) :
    parseIntAux (intChars i ++ rest) = some (i, rest) := by
  unfold intChars
  by_cases hneg : i < 0
  · simp only [hneg, if_true, List.cons_append]
    simp [parseIntAux, parseNatRun_natDigits _ _ h, abs_of_neg hneg]
  · simp only [hneg, if_false]
    obtain ⟨c, tail, hct⟩ : ∃ c tail, natDigits i.toNat = c :: tail := by
      cases hnd : natDigits i.toNat with
      | nil => exact absurd hnd (natDigits_ne_nil _)
      | cons c t => exact ⟨c, t, rfl⟩
    have hc : c.isDigit = true := by
      apply natDigits_all_digit i.toNat
      simp [hct]
    have hi : ((i.toNat : Int)) = i := by omega
    rw [hct, List.cons_append]
    have hm : parseIntAux (c :: (tail ++ rest)) =
        (parseNatRun (c :: (tail ++ rest))).map (fun p => ((p.1 : Int), p.2)) := by
      simp [parseIntAux, isDigit_ne_minus hc]
    rw [hm, ← List.cons_append, ← hct, parseNatRun_natDigits _ _ h]
    simp [hi]

theorem isJsonWs_of_digit {c : Char} (h : c.isDigit = true) : isJsonWs c = false := by
  cases hw : isJsonWs c with
  | false => rfl
  | true =>
    exfalso
    simp only [isJsonWs, Bool.or_eq_true, beq_iff_eq] at hw
    rcases hw with ((rfl | rfl) | rfl) | rfl <;> simp [Char.isDigit] at h

theorem skipWs_cons {c : Char} {t : List Char} (h : isJsonWs c = false) :
    skipWs (c :: t) = c :: t := by
  simp [skipWs, List.dropWhile_cons, h]

/-- The serialized form of an integer starts with a minus sign or a
digit, so `skipWs` leaves it alone. -/
theorem intChars_head (i : Int) :
    ∃ c tail, intChars i = c :: tail ∧ isJsonWs c = false := by
  unfold intChars
  by_cases hneg : i < 0
  · exact ⟨'-', natDigits i.natAbs, by simp [hneg], by decide⟩
  · obtain ⟨c, tail, hct⟩ : ∃ c tail, natDigits i.toNat = c :: tail := by
      cases hnd : natDigits i.toNat with
      | nil => exact absurd hnd (natDigits_ne_nil _)
      | cons c t => exact ⟨c, t, rfl⟩
    refine ⟨c, tail, by simp [hneg, hct], ?_⟩
    apply isJsonWs_of_digit
    apply natDigits_all_digit i.toNat
    simp [hct]

theorem skipWs_dumpsBody_append (l : List Int) (hl : l ≠ []) (rest : List Char) :
    skipWs (dumpsBody l ++ rest) = dumpsBody l ++ rest := by
  obtain ⟨i, t, rfl⟩ : ∃ i t, l = i :: t := by
    cases l with
    | nil => exact absurd rfl hl
    | cons i t => exact ⟨i, t, rfl⟩
  obtain ⟨c, ctail, hc, hws⟩ := intChars_head i
  cases t with
  | nil => simp only [dumpsBody, hc, List.cons_append]; exact skipWs_cons hws
  | cons j t2 =>
    simp only [dumpsBody, hc, List.cons_append, List.append_assoc]
    exact skipWs_cons hws

theorem skipWs_intChars_append (i : Int) (rest : List Char) :
    skipWs (intChars i ++ rest) = intChars i ++ rest := by
  obtain ⟨c, tail, hc, hws⟩ := intChars_head i
  rw [hc, List.cons_append]
  exact skipWs_cons hws

/-- Leading JSON whitespace is irrelevant to `parseItems` (it skips it
before each item). -/
theorem parseItems_ws_cons (fuel : Nat) (c : Char) (Y : List Char)
    (h : isJsonWs c = true) : parseItems fuel (c :: Y) = parseItems fuel Y := by
  cases fuel with
  | zero => rfl
  | succ fuel =>
    simp only [parseItems]
    rw [show skipWs (c :: Y) = skipWs Y by simp [skipWs, List.dropWhile_cons, h]]

/-- `parseItems` reads back exactly the serialized items (with the
closing bracket and nothing after it). -/
theorem parseItems_dumpsBody : ∀ (l : List Int) (fuel : Nat), l ≠ [] →
    l.length ≤ fuel → parseItems fuel (dumpsBody l ++ [']']) = some l := by
  intro l
  induction l with
  | nil => intro fuel h _; exact absurd rfl h
  | cons i t ih =>
    intro fuel _ hfuel
    match fuel, hfuel with
    | fuel + 1, hfuel =>
      cases t with
      | nil =>
        rw [show dumpsBody [i] ++ [']'] = intChars i ++ [']'] from rfl]
        simp only [parseItems]
        rw [skipWs_intChars_append, parseIntAux_intChars i [']'] (stopsRun_cons (by decide))]
        dsimp only
        rw [show skipWs [']'] = ']' :: [] from rfl]
        simp [skipWs]
      | cons j t2 =>
        rw [show dumpsBody (i :: j :: t2) ++ [']']
              = intChars i ++ (',' :: ' ' :: (dumpsBody (j :: t2) ++ [']'])) by
            simp [dumpsBody]]
        simp only [parseItems]
        rw [skipWs_intChars_append,
          parseIntAux_intChars i _ (stopsRun_cons (by decide))]
        dsimp only
        rw [show skipWs (',' :: ' ' :: (dumpsBody (j :: t2) ++ [']']))
              = ',' :: ' ' :: (dumpsBody (j :: t2) ++ [']']) from skipWs_cons (by decide)]
        have ht : parseItems fuel (' ' :: (dumpsBody (j :: t2) ++ [']']))
            = some (j :: t2) := by
          rw [parseItems_ws_cons fuel ' ' _ (by decide)]
          exact ih fuel (by simp) (by simpa using Nat.le_of_succ_le_succ hfuel)
        simp [ht]


theorem intChars_ne_nil (i : Int) : intChars i ≠ [] := by
  obtain ⟨c, tail, hc, _⟩ := intChars_head i
  simp [hc]

theorem intChars_head_ne_rbracket (i : Int) :
    ∃ c tail, intChars i = c :: tail ∧ c ≠ ']' := by
  unfold intChars
  by_cases hneg : i < 0
  · exact ⟨'-', natDigits i.natAbs, by simp [hneg], by decide⟩
  · obtain ⟨c, tail, hct⟩ : ∃ c tail, natDigits i.toNat = c :: tail := by
      cases hnd : natDigits i.toNat with
      | nil => exact absurd hnd (natDigits_ne_nil _)
      | cons c t => exact ⟨c, t, rfl⟩
    refine ⟨c, tail, by simp [hneg, hct], ?_⟩
    have hc : c.isDigit = true := by
      apply natDigits_all_digit i.toNat
      simp [hct]
    rintro rfl
    simp [Char.isDigit] at hc

theorem dumpsBody_cons_eq (i : Int) (t : List Int) :
    ∃ R, dumpsBody (i :: t) = intChars i ++ R := by
  cases t with
  | nil => exact ⟨[], by simp [dumpsBody]⟩
  | cons j t2 => exact ⟨',' :: ' ' :: dumpsBody (j :: t2), by simp [dumpsBody]⟩

theorem length_le_dumpsBody (l : List Int) :
    l.length ≤ (dumpsBody l).length + 1 := by
  induction l with
  | nil => simp [dumpsBody]
  | cons i t ih =>
    have hpos : 0 < (intChars i).length := List.length_pos.mpr (intChars_ne_nil i)
    cases t with
    | nil => simp only [dumpsBody, List.length_cons, List.length_nil]; omega
    | cons j t2 =>
      simp only [dumpsBody, List.length_cons, List.length_append] at *
      omega

/-- The serializer's output always parses back to the original list
(`json.loads(json.dumps(l)) == l`). -/
theorem parseIntList_dumpsIntList (l : List Int) :
    parseIntList (dumpsIntList l) = some l := by
  cases l with
  | nil => decide
  | cons i t =>
    unfold dumpsIntList parseIntList
    rw [show skipWs ('[' :: (dumpsBody (i :: t) ++ [']']))
          = '[' :: (dumpsBody (i :: t) ++ [']']) from skipWs_cons (by decide)]
    dsimp only
    rw [if_pos rfl]
    rw [skipWs_dumpsBody_append (i :: t) (by simp) [']']]
    obtain ⟨c, ct, hc, hnb⟩ := intChars_head_ne_rbracket i
    obtain ⟨R, hR⟩ := dumpsBody_cons_eq i t
    have hhead : (dumpsBody (i :: t) ++ [']']).head? = some c := by
      rw [hR, hc]
      simp
    rw [if_neg (by simp [hhead, hnb])]
    apply parseItems_dumpsBody (i :: t) _ (by simp)
    have := length_le_dumpsBody (i :: t)
    simp only [List.length_append, List.length_cons, List.length_nil] at this ⊢
    omega

theorem dropWhilePy_cons {c : Char} {t : List Char} (h : isPyWs c = false) :
    List.dropWhile isPyWs (c :: t) = c :: t := by
  simp [List.dropWhile_cons, h]

/-- `str.strip` leaves the serializer's output unchanged (it starts
with `[` and ends with `]`). -/
theorem trimChars_dumpsIntList (l : List Int) :
    trimChars (dumpsIntList l) = dumpsIntList l := by
  unfold trimChars dumpsIntList
  rw [dropWhilePy_cons (by decide)]
  have hrev : ('[' :: (dumpsBody l ++ [']'])).reverse
      = ']' :: ((dumpsBody l).reverse ++ ['[']) := by
    simp
  rw [hrev, dropWhilePy_cons (by decide), ← hrev, List.reverse_reverse]


/-! ## Lemmas: the seen-set store -/

/-- Loading right after a completed save recovers exactly the saved
set (`set(json.loads(json.dumps(list(s)))) == s`). -/
theorem load_save_known (known : List Int) :
    (GradeTracker.load (GradeTracker.save known)).known_grades = known.dedup := by
  unfold GradeTracker.save GradeTracker.load
  dsimp only
  rw [trimChars_dumpsIntList]
  have hne : (dumpsIntList known).isEmpty = false := rfl
  rw [hne]
  simp only [Bool.false_eq_true, if_false, parseIntList_dumpsIntList known]

/-! ## Lemmas: the per-cycle grade loop -/

theorem processGrades_mem_known (api : ApiData) (orc : Oracle) :
    ∀ (gs : List Grade) (st : MonitorState) (i : Int),
      i ∈ (processGrades api orc gs st).state.known_grades ↔
        i ∈ st.known_grades ∨ i ∈ gs.map Grade.id := by
  intro gs
  induction gs with
  | nil => intro st i; simp [processGrades]
  | cons g rest ih =>
    intro st i
    by_cases hmem : g.id ∈ st.known_grades
    · simp only [processGrades, if_pos hmem, List.map_cons, List.mem_cons]
      rw [ih]
      constructor
      · rintro (h | h)
        · exact Or.inl h
        · exact Or.inr (Or.inr h)
      · rintro (h | rfl | h)
        · exact Or.inl h
        · exact Or.inl hmem
        · exact Or.inr h
    · simp only [processGrades, if_neg hmem, List.map_cons, List.mem_cons]
      rw [ih]
      simp only [List.mem_insert_iff]
      tauto

theorem processGrades_all_known (api : ApiData) (orc : Oracle) :
    ∀ (gs : List Grade) (st : MonitorState),
      (∀ g ∈ gs, g.id ∈ st.known_grades) →
      processGrades api orc gs st = ⟨st, []⟩ := by
  intro gs
  induction gs with
  | nil => intro st _; rfl
  | cons g rest ih =>
    intro st h
    have hg : g.id ∈ st.known_grades := h g (by simp)
    simp only [processGrades, if_pos hg]
    exact ih st (fun g2 hg2 => h g2 (by simp [hg2]))

/-- A second pass over the same fetched list, starting from the state
the first pass produced, detects nothing and dispatches nothing. -/
theorem processGrades_idempotent (api : ApiData) (orc orc2 : Oracle)
    (gs : List Grade) (st : MonitorState) :
    processGrades api orc2 gs (processGrades api orc gs st).state
      = ⟨(processGrades api orc gs st).state, []⟩ := by
  apply processGrades_all_known
  intro g hg
  rw [processGrades_mem_known]
  exact Or.inr (List.mem_map_of_mem Grade.id hg)

theorem processGrades_emails_fresh (api : ApiData) (orc : Oracle) :
    ∀ (gs : List Grade) (st : MonitorState) (e : CycleEmail),
      e ∈ (processGrades api orc gs st).emails → e.gid ∉ st.known_grades := by
  intro gs
  induction gs with
  | nil => intro st e h; simp [processGrades] at h
  | cons g rest ih =>
    intro st e he
    by_cases hmem : g.id ∈ st.known_grades
    · rw [processGrades, if_pos hmem] at he
      exact ih st e he
    · rw [processGrades, if_neg hmem] at he
      simp only [List.mem_cons] at he
      rcases he with rfl | he
      · exact hmem
      · have := ih _ e he
        simp only [List.mem_insert_iff, not_or] at this
        exact this.2

/-- Within one cycle, at most one dispatch happens per grade
identifier: the id goes into the in-memory set before the next record
is examined, so its dispatched ids are pairwise distinct. -/
theorem processGrades_emails_nodup (api : ApiData) (orc : Oracle) :
    ∀ (gs : List Grade) (st : MonitorState),
      ((processGrades api orc gs st).emails.map CycleEmail.gid).Nodup := by
  intro gs
  induction gs with
  | nil => intro st; simp [processGrades]
  | cons g rest ih =>
    intro st
    by_cases hmem : g.id ∈ st.known_grades
    · rw [processGrades, if_pos hmem]
      exact ih st
    · rw [processGrades, if_neg hmem]
      simp only [List.map_cons, List.nodup_cons]
      refine ⟨?_, ih _⟩
      intro hcontra
      obtain ⟨e, he, hegid⟩ := List.mem_map.mp hcontra
      have := processGrades_emails_fresh api orc rest _ e he
      simp only [List.mem_insert_iff, not_or] at this
      exact this.1 hegid

/-- When the fetched records carry pairwise distinct ids, the
dispatched notifications are exactly the records not yet in the seen
set, in fetch order. -/
theorem processGrades_filter_ids (api : ApiData) (orc : Oracle) :
    ∀ (gs : List Grade) (st : MonitorState), (gs.map Grade.id).Nodup →
      (processGrades api orc gs st).emails.map CycleEmail.gid
        = (gs.filter (fun g => decide (g.id ∉ st.known_grades))).map Grade.id := by
  intro gs
  induction gs with
  | nil => intro st _; simp [processGrades]
  | cons g rest ih =>
    intro st hnd
    simp only [List.map_cons, List.nodup_cons] at hnd
    by_cases hmem : g.id ∈ st.known_grades
    · rw [processGrades, if_pos hmem]
      rw [List.filter_cons_of_neg (by simp [hmem])]
      exact ih st hnd.2
    · rw [processGrades, if_neg hmem]
      rw [List.filter_cons_of_pos (by simp [hmem])]
      simp only [List.map_cons, List.cons.injEq]
      refine ⟨by trivial, ?_⟩
      rw [ih _ hnd.2]
      congr 1
      apply List.filter_congr
      intro g2 hg2
      have hne : g2.id ≠ g.id := by
        intro hcc
        exact hnd.1 (hcc ▸ List.mem_map_of_mem Grade.id hg2)
      simp [List.mem_insert_iff, hne]

/-- When every save call succeeds and at least one new record was
processed, the cycle leaves the file holding exactly the serialized
final in-memory set. -/
theorem processGrades_file_saved (api : ApiData) (orc : Oracle)
    (hsave : ∀ i, orc.saveOk i = true) :
    ∀ (gs : List Grade) (st : MonitorState),
      (∃ g ∈ gs, g.id ∉ st.known_grades) →
      (processGrades api orc gs st).state.file
        = GradeTracker.save (processGrades api orc gs st).state.known_grades := by
  intro gs
  induction gs with
  | nil => intro st h; simp at h
  | cons g rest ih =>
    intro st hex
    by_cases hmem : g.id ∈ st.known_grades
    · obtain ⟨g2, hg2, hg2n⟩ := hex
      simp only [List.mem_cons] at hg2
      rcases hg2 with rfl | hg2
      · exact absurd hmem hg2n
      · rw [processGrades, if_pos hmem]
        exact ih st ⟨g2, hg2, hg2n⟩
    · rw [processGrades, if_neg hmem]
      rw [hsave g.id]
      simp only [if_true]
      by_cases hrest : ∃ g2 ∈ rest, g2.id ∉ (st.known_grades.insert g.id)
      · exact ih _ hrest
      · push_neg at hrest
        rw [processGrades_all_known api orc rest _ (by simpa using hrest)]

/-- Per-cycle counters of the unrolled loop: one executed cycle and one
`get_data` call per scheduled interval, whatever the per-cycle
outcomes. -/
theorem runCycles_count (api : ApiData) :
    ∀ (cycles : List CycleInput) (st : MonitorState),
      (runCycles api cycles st).2.2 = cycles.length := by
  intro cycles
  induction cycles with
  | nil => intro st; rfl
  | cons c rest ih =>
    intro st
    simp only [runCycles, List.length_cons]
    rw [ih]

/-! ## Concrete data for witnesses and counterexamples -/

/-- Example grade: id 1, well-formed timestamp. -/
def exGrade1 : Grade :=
  ⟨1, "2024-03-15 10:30:00", 5, 99, 3, "5", false, "RAW1"⟩

/-- Example grade: id 2, well-formed timestamp (the spec's
failed-dispatch scenario record). -/
def exGrade2 : Grade :=
  ⟨2, "2024-03-15 11:00:00", 6, 9, 3, "4", false, "RAW2"⟩

/-- Example grade: id 3, malformed timestamp. -/
def exGradeBad : Grade :=
  ⟨3, "invalid-date", 5, 9, 3, "3", false, "RAWBAD"⟩

/-- Oracle where every transport and file operation succeeds. -/
def exOracleOk : Oracle := ⟨fun _ => true, fun _ => true⟩

/-- Oracle where every SMTP send fails (and is swallowed by
`send_email`, which returns `False`); file writes succeed. -/
def exOracleSendFail : Oracle := ⟨fun _ => false, fun _ => true⟩

/-- Fresh startup state: empty in-memory set, no seen-set file. -/
def exState0 : MonitorState := ⟨[], .missing⟩

/-- Malformed (non-JSON) seen-set file content. -/
def exMalformed : List Char := ['o', 'o', 'p', 's']

/-! ## Claim C1 -/

/-- Claim C1 is false on the code: in the spec's own scenario (dispatch
fails for record id 2, empty seen set), the cycle's one dispatch call
fails (`send_email` returns `False`, which `check_for_updates`
ignores), yet id 2 IS in the persisted seen set after the cycle, and
the record is NOT detected as new on the next cycle (no dispatch
occurs). -/
theorem c1_counterexample :
    (processGrades ApiData.empty exOracleSendFail [exGrade2] exState0).emails.map
        CycleEmail.ok = [false]
    ∧ (2 : Int) ∈ (GradeTracker.load
        (processGrades ApiData.empty exOracleSendFail [exGrade2]
          exState0).state.file).known_grades
    ∧ (processGrades ApiData.empty exOracleSendFail [exGrade2]
        (processGrades ApiData.empty exOracleSendFail [exGrade2]
          exState0).state).emails = [] := by
  decide

/-- Claim C1 (amended): for every newly detected record the
orchestrator adds the identifier to the seen set and — when the file
write succeeds — persists it, after the dispatch attempt completes but
regardless of whether the dispatch succeeded; consequently a record
whose dispatch failed is not detected as new again, and a second cycle
over the same fetched list dispatches nothing. -/
theorem c1_theorem (api : ApiData) (orc : Oracle) (gs : List Grade)
    (st : MonitorState) :
    (∀ i : Int, i ∈ (processGrades api orc gs st).state.known_grades ↔
        i ∈ st.known_grades ∨ i ∈ gs.map Grade.id)
    ∧ ((∀ i, orc.saveOk i = true) → (∃ g ∈ gs, g.id ∉ st.known_grades) →
        (processGrades api orc gs st).state.file
          = GradeTracker.save (processGrades api orc gs st).state.known_grades)
    ∧ (∀ orc2 : Oracle,
        (processGrades api orc2 gs (processGrades api orc gs st).state).emails
          = []) := by
  refine ⟨fun i => processGrades_mem_known api orc gs st i,
    fun hs hex => processGrades_file_saved api orc hs gs st hex,
    fun orc2 => ?_⟩
  rw [processGrades_idempotent]

/-- Claim C1 amended-theorem witness: the failed-dispatch cycle at a
concrete input persists the serialized final set. -/
theorem c1_witness :
    (processGrades ApiData.empty exOracleSendFail [exGrade2] exState0).state.file
      = GradeTracker.save
          (processGrades ApiData.empty exOracleSendFail [exGrade2]
            exState0).state.known_grades :=
  (c1_theorem ApiData.empty exOracleSendFail [exGrade2] exState0).2.1
    (fun _ => rfl) ⟨exGrade2, by decide, by decide⟩

/-! ## Claim C2 -/

/-- Claim C2 is false as stated for arbitrary fetched sequences: when
the response carries two records with the same identifier, the code
dispatches only the first (the id enters the in-memory set before the
second is examined), while a pure filter against the initial seen set
would keep both. -/
theorem c2_counterexample :
    ¬ ((processGrades ApiData.empty exOracleOk [exGrade1, exGrade1]
          exState0).emails.map CycleEmail.gid
        = (([exGrade1, exGrade1].filter
            (fun g => decide (g.id ∉ exState0.known_grades))).map Grade.id)) := by
  decide

/-- Claim C2 (amended): provided the fetched sequence has pairwise
distinct identifiers, the dispatched notifications are exactly the
records whose identifier is not in the seen set, in the order the
remote client returned them; and a second cycle over an unchanged
fetched sequence after the update yields no new records and zero
dispatch calls. -/
theorem c2_theorem (api : ApiData) (orc : Oracle) (gs : List Grade)
    (st : MonitorState) (hnd : (gs.map Grade.id).Nodup) :
    (processGrades api orc gs st).emails.map CycleEmail.gid
      = (gs.filter (fun g => decide (g.id ∉ st.known_grades))).map Grade.id
    ∧ ∀ orc2 : Oracle,
        processGrades api orc2 gs (processGrades api orc gs st).state
          = ⟨(processGrades api orc gs st).state, []⟩ :=
  ⟨processGrades_filter_ids api orc gs st hnd,
    fun orc2 => processGrades_idempotent api orc orc2 gs st⟩

/-- Claim C2 amended-theorem witness at a concrete two-record fetch. -/
theorem c2_witness :
    (processGrades ApiData.empty exOracleOk [exGrade1, exGrade2]
        exState0).emails.map CycleEmail.gid
      = (([exGrade1, exGrade2].filter
          (fun g => decide (g.id ∉ exState0.known_grades))).map Grade.id) :=
  (c2_theorem ApiData.empty exOracleOk [exGrade1, exGrade2] exState0
    (by decide)).1

/-! ## Claim C10 -/

/-- Claim C10: within a single cycle at most one notification is
dispatched per identifier — the id is added to the in-memory set
before the next record of the same response is examined, so the
dispatched identifiers of any cycle are pairwise distinct. -/
theorem c10_theorem (api : ApiData) (orc : Oracle) (gs : List Grade)
    (st : MonitorState) :
    ((processGrades api orc gs st).emails.map CycleEmail.gid).Nodup :=
  processGrades_emails_nodup api orc gs st

/-! ## Claim C3 -/

/-- Claim C3 is false in its "discards the corrupt file" part: loading
a malformed seen-set file returns the empty set without raising, but
the corrupt file is left on disk unchanged — `GradeTracker.load` never
removes it. -/
theorem c3_counterexample :
    (GradeTracker.load (FileContent.content exMalformed)).known_grades = []
    ∧ (GradeTracker.load (FileContent.content exMalformed)).file
        = FileContent.content exMalformed
    ∧ (GradeTracker.load (FileContent.content exMalformed)).file
        ≠ FileContent.missing := by
  decide

/-- Claim C3 (amended): for a missing, (stripped-)empty, or malformed
seen-set file, `load` returns the empty set and does not raise; the
corrupt file is left in place unmodified (it is only overwritten by a
later save), not discarded. -/
theorem c3_theorem (s : List Char) :
    GradeTracker.load FileContent.missing
        = ⟨[], FileContent.missing⟩
    ∧ ((trimChars s).isEmpty = true →
        GradeTracker.load (FileContent.content s)
          = ⟨[], FileContent.content s⟩)
    ∧ (parseIntList (trimChars s) = none →
        GradeTracker.load (FileContent.content s)
          = ⟨[], FileContent.content s⟩) := by
  refine ⟨rfl, ?_, ?_⟩
  · intro h
    simp only [GradeTracker.load, h, if_true]
  · intro h
    by_cases hemp : (trimChars s).isEmpty = true
    · simp only [GradeTracker.load, hemp, if_true]
    · simp only [GradeTracker.load, hemp, Bool.false_eq_true, if_false, h]

/-- Claim C3 amended-theorem witness at a concrete malformed file. -/
theorem c3_witness :
    GradeTracker.load (FileContent.content exMalformed)
      = ⟨[], FileContent.content exMalformed⟩ :=
  (c3_theorem exMalformed).2.2 (by decide)

/-! ## Claim C4 -/

/-- The concrete seen set used in the C4 statements. -/
def exSeen12 : List Int := [1, 2]

/-- Claim C4 is false on the code: `save` writes with a single direct
`write_text` (truncate then write, no temp file), so a write
interrupted after 3 characters leaves `"[1,"` on disk — neither the old
content (an empty file here) nor the full serialized set. -/
theorem c4_counterexample :
    ¬ (partialWrite (dumpsIntList exSeen12) 3 = []
       ∨ partialWrite (dumpsIntList exSeen12) 3 = dumpsIntList exSeen12) := by
  decide

/-- Claim C4 (amended): `save` writes the serialized full set in one
direct write to the target path.  A write that runs to completion
leaves exactly the full serialized set, but an interrupted write leaves
a strict prefix of it — the scheme is not atomic and uses no
temp-file-and-replace. -/
theorem c4_theorem (known : List Int) (k : Nat) :
    GradeTracker.save known = FileContent.content (dumpsIntList known)
    ∧ ((dumpsIntList known).length ≤ k →
        partialWrite (dumpsIntList known) k = dumpsIntList known)
    ∧ (k < (dumpsIntList known).length →
        partialWrite (dumpsIntList known) k ≠ dumpsIntList known) := by
  refine ⟨rfl, ?_, ?_⟩
  · intro h
    exact List.take_of_length_le h
  · intro h hcontra
    have hlen := congrArg List.length hcontra
    simp only [partialWrite, List.length_take] at hlen
    omega

/-- Claim C4 amended-theorem witness: the interruption point 3 is
strictly inside the serialized content `"[1, 2]"`, so the partial file
differs from the full write. -/
theorem c4_witness :
    partialWrite (dumpsIntList exSeen12) 3 ≠ dumpsIntList exSeen12 :=
  (c4_theorem exSeen12 3).2.2 (by decide)

/-! ## Claim C8 -/

/-- Claim C8: persisting any finite set of integers (any in-memory
`known_grades` value, the empty set included) and loading it back
yields a set equal to the one persisted. -/
theorem c8_theorem (s : List Int) :
    ((GradeTracker.load (GradeTracker.save s)).known_grades).toFinset
        = s.toFinset
    ∧ ∀ i : Int,
        i ∈ (GradeTracker.load (GradeTracker.save s)).known_grades ↔ i ∈ s := by
  rw [load_save_known]
  refine ⟨Finset.ext fun i => ?_, fun i => List.mem_dedup⟩
  simp [List.mem_toFinset, List.mem_dedup]

/-! ## Claim C5 -/

/-- Claim C5: for a record whose subject, teacher, or category
reference has no entry in the metadata snapshot (the absent-snapshot
state `ApiData.empty` included), formatting succeeds — the body is the
intercalation of the grade-info lines, never a failure — and the lines
embed the deterministic placeholders carrying the raw numeric
reference (`Subject ID: <ref>`, `Teacher (ID: <ref>)`,
`Category <ref>`). -/
theorem c5_theorem (api : ApiData) (g : Grade) (date : String)
    (hd : parseAddDate g.addDate = some date) :
    format_grade_info api g = String.intercalate "\n" (format_lines api g date)
    ∧ (api.subjects.find? (fun s => s.id == g.subjectId) = none →
        ("Przedmiot: Subject ID: " ++ toString g.subjectId)
          ∈ format_lines api g date)
    ∧ (api.users.find? (fun u => u.id == g.addedById) = none →
        ("Nauczyciel: Unknown Teacher (ID: " ++ toString g.addedById ++ ")")
          ∈ format_lines api g date)
    ∧ (api.categories.find? (fun c => c.id == g.categoryId) = none →
        ("Kategoria: Category " ++ toString g.categoryId
            ++ " (waga: " ++ "N/A" ++ ")")
          ∈ format_lines api g date) := by
  have hbase : ∀ x : String,
      x ∈ [
        "Przedmiot: " ++ findSubjectName api g.subjectId,
        "Ocena: " ++ g.grade,
        "Kategoria: " ++ (findCategory api g.categoryId).1 ++
          " (waga: " ++ (findCategory api g.categoryId).2 ++ ")",
        "Nauczyciel: " ++ (findTeacher api g.addedById).1 ++ " " ++
          (findTeacher api g.addedById).2,
        "Data: " ++ date] → x ∈ format_lines api g date := by
    intro x hx
    unfold format_lines
    cases hcom : g.comments
    · simpa using hx
    · simp only [if_true]
      exact List.mem_append_left _ hx
  refine ⟨by unfold format_grade_info; rw [hd], ?_, ?_, ?_⟩
  · intro hfind
    apply hbase
    have hsub : findSubjectName api g.subjectId
        = "Subject ID: " ++ toString g.subjectId := by
      unfold findSubjectName
      rw [hfind]
    rw [hsub]
    simp [← String.append_assoc]
  · intro hfind
    apply hbase
    have hteach : findTeacher api g.addedById
        = ("Unknown", "Teacher (ID: " ++ toString g.addedById ++ ")") := by
      unfold findTeacher
      rw [hfind]
    rw [hteach]
    simp [← String.append_assoc]
  · intro hfind
    apply hbase
    have hcat : findCategory api g.categoryId
        = ("Category " ++ toString g.categoryId, "N/A") := by
      unfold findCategory
      rw [hfind]
    rw [hcat]
    simp [← String.append_assoc]

/-- Claim C5 witness: with the snapshot absent entirely
(`ApiData.empty`), a concrete record formats successfully and its lines
carry all three ID placeholders. -/
theorem c5_witness :
    ("Przedmiot: Subject ID: " ++ toString exGrade1.subjectId)
        ∈ format_lines ApiData.empty exGrade1 "2024-03-15 10:30"
    ∧ ("Nauczyciel: Unknown Teacher (ID: " ++ toString exGrade1.addedById ++ ")")
        ∈ format_lines ApiData.empty exGrade1 "2024-03-15 10:30"
    ∧ ("Kategoria: Category " ++ toString exGrade1.categoryId
          ++ " (waga: " ++ "N/A" ++ ")")
        ∈ format_lines ApiData.empty exGrade1 "2024-03-15 10:30" :=
  ⟨(c5_theorem ApiData.empty exGrade1 "2024-03-15 10:30" (by decide)).2.1 rfl,
   (c5_theorem ApiData.empty exGrade1 "2024-03-15 10:30" (by decide)).2.2.1 rfl,
   (c5_theorem ApiData.empty exGrade1 "2024-03-15 10:30" (by decide)).2.2.2 rfl⟩

/-! ## Claim C6 -/

/-- Claim C6 is false on the code: for a record with a malformed
timestamp, `format_grade_info` catches the `ValueError` internally and
silently returns `str(grade)` (no `FormatError` is signalled to the
caller), and the orchestrator does NOT skip the record — it dispatches
a notification whose body is the raw record dump and persists the
identifier. -/
theorem c6_counterexample :
    format_grade_info ApiData.empty exGradeBad = exGradeBad.raw
    ∧ (processGrades ApiData.empty exOracleOk [exGradeBad] exState0).emails.map
        CycleEmail.body = [exGradeBad.raw]
    ∧ (3 : Int) ∈ (processGrades ApiData.empty exOracleOk [exGradeBad]
        exState0).state.known_grades := by
  decide

/-- Claim C6 (amended): for a record whose raw timestamp does not match
the expected format, formatting catches the error internally and
returns the raw record dump; the orchestrator still dispatches a
notification for that record (with the raw dump as body), adds and
persists its identifier, and continues the cycle with the remaining
records. -/
theorem c6_theorem (api : ApiData) (orc : Oracle) (g : Grade)
    (rest : List Grade) (st : MonitorState)
    (hbad : parseAddDate g.addDate = none) (hnew : g.id ∉ st.known_grades) :
    format_grade_info api g = g.raw
    ∧ (processGrades api orc (g :: rest) st).emails
        = ⟨g.id, "Nowa ocena - " ++ subjectShort api g.subjectId, g.raw,
            orc.sendOk g.id⟩
          :: (processGrades api orc rest
              ⟨st.known_grades.insert g.id,
                if orc.saveOk g.id then
                  GradeTracker.save (st.known_grades.insert g.id)
                else st.file⟩).emails := by
  have hfmt : format_grade_info api g = g.raw := by
    unfold format_grade_info
    rw [hbad]
  refine ⟨hfmt, ?_⟩
  rw [processGrades, if_neg hnew, hfmt]

/-- Claim C6 amended-theorem witness: the malformed-timestamp record at
a concrete input is dispatched with the raw dump as body and the cycle
goes on. -/
theorem c6_witness :
    (processGrades ApiData.empty exOracleOk [exGradeBad] exState0).emails
      = ⟨exGradeBad.id,
          "Nowa ocena - " ++ subjectShort ApiData.empty exGradeBad.subjectId,
          exGradeBad.raw, exOracleOk.sendOk exGradeBad.id⟩
        :: (processGrades ApiData.empty exOracleOk []
            ⟨exState0.known_grades.insert exGradeBad.id,
              if exOracleOk.saveOk exGradeBad.id then
                GradeTracker.save (exState0.known_grades.insert exGradeBad.id)
              else exState0.file⟩).emails :=
  (c6_theorem ApiData.empty exOracleOk exGradeBad [] exState0
    (by decide) (by decide)).2

/-! ## Claim C7 -/

/-- Claim C7: every exception inside a steady-state cycle (a raising
fetch, a malformed record in formatting, a failing dispatch or save —
all the failure modes an `Oracle`/`FetchResult` can schedule) is caught
where the source catches it, so the loop executes every scheduled
interval: the number of executed cycles and of fetch attempts both
equal the schedule length whatever the per-cycle failures, the process
never exits during polling (`exitCode` stays 0), and a cycle whose
fetch raised leaves the state untouched and dispatches nothing. -/
theorem c7_theorem (api : ApiData) (file0 : FileContent)
    (cycles : List CycleInput) :
    (LibrusMonitor.run true true api file0 cycles).cyclesExecuted
        = cycles.length
    ∧ (LibrusMonitor.run true true api file0 cycles).fetchCount
        = cycles.length
    ∧ (LibrusMonitor.run true true api file0 cycles).exitCode = 0
    ∧ ∀ (orc : Oracle) (st : MonitorState),
        check_for_updates api orc FetchResult.raised st = ⟨st, []⟩ := by
  refine ⟨?_, ?_, ?_, fun orc st => rfl⟩ <;>
    simp [LibrusMonitor.run, runCycles_count]

/-! ## Claim C9 -/

/-- Claim C9 is false in its exit-status part: when initial
authentication fails (`mktoken` returns `False`), `run` logs and
returns, `asyncio.run` completes normally, and the process exits with
status 0 — not non-zero as claimed. -/
theorem c9_counterexample :
    (LibrusMonitor.run true false ApiData.empty FileContent.missing
        [⟨FetchResult.raised, exOracleOk⟩]).exitCode = 0 := by
  rfl

/-- Claim C9 (amended): if initial authentication fails, the monitor
stops without entering the polling loop — no fetch is attempted, no
email is dispatched (not even the startup one), and the persisted
seen-set file is untouched — but the process terminates with exit
status 0, not a non-zero status. -/
theorem c9_theorem (api : ApiData) (file0 : FileContent)
    (cycles : List CycleInput) :
    LibrusMonitor.run true false api file0 cycles
      = ⟨0, false, false, 0, [],
          ⟨(GradeTracker.load file0).known_grades, file0⟩, 0⟩ := by
  rfl

end LibrusGradeMonitor
